import Mathlib

/-!
Verification of the yaks `run` command orchestration logic
(`pkg/cmd/run.go`): create-or-update submission of Test resources,
dump-mode short-circuit, step skip conditions, lifecycle hooks,
phase watching, namespace teardown and group-run result aggregation.

The Go source is shallowly embedded: pure fragments become Lean
functions; the cluster API, the local filesystem and subprocess
execution are external collaborators and enter as explicit parameters
or as a small state machine with a call trace.  String operations from
the Go standard library (`strings.Split`, `strings.Contains`,
`strings.HasPrefix`, `strings.TrimPrefix`, `strings.ReplaceAll`) are
re-implemented over `List Char` with fuel so that every definition
reduces inside the kernel.
-/

namespace Yaks

set_option autoImplicit false

/-! ## Go string primitives over `List Char` -/

/-- Boolean prefix test on character lists (`strings.HasPrefix`). -/
def listStartsWith : List Char → List Char → Bool
  | [], _ => true
  | _ :: _, [] => false
  | p :: ps, c :: cs => p = c && listStartsWith ps cs

/-- Fuel-driven worker for `goSplit`; the fuel is an upper bound on the
number of characters consumed, so `length input + 1` always suffices. -/
def splitFuel (sep : List Char) : Nat → List Char → List Char → List (List Char)
  | 0, rem, acc => [acc.reverse ++ rem]
  | _ + 1, [], acc => [acc.reverse]
  | fuel + 1, c :: rest, acc =>
    if listStartsWith sep (c :: rest) then
      acc.reverse :: splitFuel sep fuel (List.drop (sep.length - 1) rest) []
    else
      splitFuel sep fuel rest (c :: acc)

/-- Go `strings.Split s sep` for a non-empty separator. -/
def goSplit (s sep : String) : List String :=
  (splitFuel sep.data (s.data.length + 1) s.data []).map String.mk

/-- Go `strings.Contains s "<c>"` for a single-character separator. -/
def goContainsChar (s : String) (c : Char) : Bool :=
  s.data.contains c

/-- Go `strings.HasPrefix`. -/
def goHasPre (s pre : String) : Bool :=
  listStartsWith pre.data s.data

/-- Go `strings.TrimPrefix`. -/
def goTrimPre (s pre : String) : String :=
  if goHasPre s pre then String.mk (s.data.drop pre.data.length) else s

/-- Boolean suffix test (`strings.HasSuffix`). -/
def goHasSuffix (s suffix : String) : Bool :=
  listStartsWith suffix.data.reverse s.data.reverse

/-- Fuel-driven worker for `goReplaceAll`. -/
def replaceFuel (pat rep : List Char) : Nat → List Char → List Char
  | 0, rem => rem
  | _ + 1, [] => []
  | fuel + 1, c :: rest =>
    if listStartsWith pat (c :: rest) then
      rep ++ replaceFuel pat rep fuel (List.drop (pat.length - 1) rest)
    else
      c :: replaceFuel pat rep fuel rest

/-- Go `strings.ReplaceAll` for a non-empty pattern. -/
def goReplaceAll (s pat rep : String) : String :=
  String.mk (replaceFuel pat.data rep.data (s.data.length + 1) s.data)

/-- Go `path.Base`, used only for display names of resources; path
cleaning details beyond the last component are irrelevant here. -/
def goPathBase (s : String) : String :=
  if s = "" then "."
  else
    match (goSplit s "/").reverse.find? (fun p => p ≠ "") with
    | some b => b
    | none => "/"

/-- Go `path.Join` restricted to joining a directory and an entry name,
as used in `runTestGroup` (`path.Join(source, f.Name())`). -/
def pathJoin (dir name : String) : String :=
  dir ++ "/" ++ name

/-! ## Data model

The `v1alpha1` API types and the `config` package schema are declared
outside the extracted source file; their shapes are taken from the
data model of the spec (section 3) and from every field access in
`pkg/cmd/run.go`. -/

/-- Test phase enumeration of the `v1alpha1` API
(`TestPhaseNone`, `TestPhaseNew`, `TestPhaseUpdating`, …). -/
inductive TestPhase where
  | none
  | new
  | updating
  | running
  | passed
  | failed
  | error
  | deleting
  deriving DecidableEq, Repr

/-- Status of a Test resource; `results` stands in for the structured
per-test result entries, which no claim inspects further. -/
structure TestStatus where
  phase : TestPhase := TestPhase.none
  results : List String := []
  deriving DecidableEq, Repr

/-- Zero value of `v1alpha1.TestStatus` (Go `TestStatus{}`). -/
def zeroTestStatus : TestStatus := {}

structure SourceSpec where
  name : String := ""
  content : String := ""
  language : String := ""
  deriving DecidableEq, Repr

structure ResourceSpec where
  name : String := ""
  content : String := ""
  deriving DecidableEq, Repr

structure SettingsSpec where
  name : String := ""
  content : String := ""
  deriving DecidableEq, Repr

structure SeleniumSpec where
  image : String := ""
  deriving DecidableEq, Repr

structure KubeDockSpec where
  image : String := ""
  deriving DecidableEq, Repr

structure TestSpec where
  source : SourceSpec := {}
  resources : List ResourceSpec := []
  settings : SettingsSpec := {}
  env : List String := []
  secret : String := ""
  selenium : SeleniumSpec := {}
  kubeDock : KubeDockSpec := {}
  dev : Bool := false
  deriving DecidableEq, Repr

/-- A Test resource as submitted to and observed from the cluster.
Kubernetes resource versions are strings in Go; they are modelled as
naturals so that the server can mint fresh versions by increment. -/
structure Test where
  namespaceName : String := ""
  name : String := ""
  resourceVersion : Nat := 0
  spec : TestSpec := {}
  status : TestStatus := {}
  deriving DecidableEq, Repr

/-- Errors flowing through the orchestrator.  The tagged constructors
mirror the `k8serrors` predicates the source dispatches on
(`IsAlreadyExists`, `IsNotFound`) plus optimistic-concurrency
conflicts; everything else is a plain message. -/
inductive GoError where
  | alreadyExists
  | notFound
  | conflict
  | msg (s : String)
  deriving DecidableEq, Repr

/-- Human-readable message of an error (Go `err.Error()`). -/
def GoError.message : GoError → String
  | .alreadyExists => "already exists"
  | .notFound => "not found"
  | .conflict => "conflict"
  | .msg s => s

/-- Modelled from the spec: `k8serrors.ReasonForError` used by
`handleTestError` to prefix the one-line error suite; the exact reason
string decides no claim. -/
def reasonForError : GoError → String
  | .alreadyExists => "AlreadyExists"
  | .notFound => "NotFound"
  | .conflict => "Conflict"
  | .msg _ => ""

/-- One suite per source (`v1alpha1.TestSuite`): human-readable failure
strings plus attached per-test results. -/
structure TestSuite where
  errors : List String := []
  results : List String := []
  deriving DecidableEq, Repr

/-- Aggregate of a whole invocation (`v1alpha1.TestResults`). -/
structure TestResults where
  suites : List TestSuite := []
  deriving DecidableEq, Repr

/-! ## Run configuration (`pkg/cmd/config`), shaped per spec section 3
and the field accesses in `run.go`. -/

structure EnvConfig where
  name : String := ""
  value : String := ""
  deriving DecidableEq, Repr

structure CucumberConfig where
  tags : List String := []
  glue : List String := []
  options : String := ""
  deriving DecidableEq, Repr

structure SettingsConfig where
  dependencies : List String := []
  repositories : List String := []
  loggers : List String := []
  deriving DecidableEq, Repr

structure SeleniumConfig where
  image : String := ""
  deriving DecidableEq, Repr

structure TestContainersConfig where
  enabled : Bool := false
  deriving DecidableEq, Repr

structure RuntimeConfig where
  resources : List String := []
  env : List EnvConfig := []
  secret : String := ""
  selenium : SeleniumConfig := {}
  testContainers : TestContainersConfig := {}
  settings : SettingsConfig := {}
  cucumber : CucumberConfig := {}
  deriving DecidableEq, Repr

structure NamespaceConfig where
  name : String := ""
  temporary : Bool := false
  autoRemove : Bool := false
  deriving DecidableEq, Repr

structure OperatorConfig where
  roles : List String := []
  deriving DecidableEq, Repr

/-- A pre/post lifecycle step (`config.StepConfig`). -/
structure StepConfig where
  name : String := ""
  script : String := ""
  run : String := ""
  If : String := ""
  timeout : String := ""
  deriving DecidableEq, Repr

structure NestedConfig where
  namespaceCfg : NamespaceConfig := {}
  operator : OperatorConfig := {}
  recursive : Bool := false
  runtime : RuntimeConfig := {}
  timeout : String := ""
  deriving DecidableEq, Repr

structure RunConfig where
  config : NestedConfig := {}
  baseDir : String := ""
  pre : List StepConfig := []
  post : List StepConfig := []
  deriving DecidableEq, Repr

/-- CLI options of the run command (`runCmdOptions`).  Slices the Go
code compares against `nil` are `Option (List String)`; slices only
inspected through `len` are plain lists. -/
structure RunCmdOptions where
  repositories : List String := []
  dependencies : List String := []
  logger : List String := []
  settings : String := ""
  env : Option (List String) := Option.none
  tags : Option (List String) := Option.none
  features : Option (List String) := Option.none
  resources : List String := []
  propertyFiles : List String := []
  glue : Option (List String) := Option.none
  options : String := ""
  dumpFormat : String := ""
  timeout : String := ""
  wait : Bool := true
  logs : Bool := true
  dev : Bool := false
  deriving DecidableEq, Repr

/-! ## Cluster state and client operations

The Kubernetes client is an external collaborator.  Its semantics —
create fails on an existing key, get returns the stored object, update
is a compare-and-set on the resource version, the status subresource is
written separately from the spec — are exactly the contract the
create-or-update protocol of section 4.4 of the spec relies on, and are
modelled here as a state machine over the list of stored Tests with an
explicit call trace. -/

/-- The cluster calls issued for the Test resource, in order. -/
inductive ClusterCall where
  | create (ns name : String)
  | get (ns name : String)
  | statusUpdate (ns name : String)
  | update (ns name : String)
  deriving DecidableEq, Repr

/-- Stored Test resources, addressed by `(Namespace, Name)`. -/
abbrev ClusterState := List Test

/-- First stored Test with the given address. -/
def findTest (st : ClusterState) (ns name : String) : Option Test :=
  st.find? (fun t => t.namespaceName = ns && t.name = name)

/-- Number of stored Tests with the given address. -/
def countTest (st : ClusterState) (ns name : String) : Nat :=
  (st.filter (fun t => t.namespaceName = ns && t.name = name)).length

/-- Replace every stored Test at `t.namespaceName, t.name` by `t`. -/
def replaceTest (st : ClusterState) (t : Test) : ClusterState :=
  st.map (fun u =>
    if u.namespaceName = t.namespaceName ∧ u.name = t.name then t else u)

/-- Modelled from the spec: cluster `Create`.  Fails with
`alreadyExists` when the address is taken; otherwise persists the
object with a fresh resource version and returns the stored copy
(controller-runtime writes the response back into the argument). -/
def clientCreate (st : ClusterState) (t : Test) : Except GoError Test × ClusterState :=
  match findTest st t.namespaceName t.name with
  | some _ => (.error .alreadyExists, st)
  | Option.none =>
    let stored := { t with resourceVersion := 1 }
    (.ok stored, st ++ [stored])

/-- Modelled from the spec: cluster `Get` by object key. -/
def clientGet (st : ClusterState) (ns name : String) : Except GoError Test :=
  match findTest st ns name with
  | some t => .ok t
  | Option.none => .error .notFound

/-- Modelled from the spec: `Status().Update`.  Compare-and-set on the
resource version; on success only the status is overwritten, the
version is bumped, and the refreshed object is echoed back. -/
def clientStatusUpdate (st : ClusterState) (t : Test) : Except GoError Test × ClusterState :=
  match findTest st t.namespaceName t.name with
  | Option.none => (.error .notFound, st)
  | some stored =>
    if stored.resourceVersion ≠ t.resourceVersion then (.error .conflict, st)
    else
      let stored' := { stored with
        status := t.status,
        resourceVersion := stored.resourceVersion + 1 }
      (.ok stored', replaceTest st stored')

/-- Modelled from the spec: cluster `Update` of the main resource.
Compare-and-set on the resource version; on success the spec is
overwritten while the status subresource is left as stored. -/
def clientUpdate (st : ClusterState) (t : Test) : Except GoError Test × ClusterState :=
  match findTest st t.namespaceName t.name with
  | Option.none => (.error .notFound, st)
  | some stored =>
    if stored.resourceVersion ≠ t.resourceVersion then (.error .conflict, st)
    else
      let stored' := { stored with
        spec := t.spec,
        resourceVersion := stored.resourceVersion + 1 }
      (.ok stored', replaceTest st stored')

instance {ε α : Type _} [DecidableEq ε] [DecidableEq α] : DecidableEq (Except ε α) := fun a b =>
  match a, b with
  | .ok x, .ok y =>
    if h : x = y then .isTrue (by subst h; rfl)
    else .isFalse (fun hc => h (by injection hc))
  | .error x, .error y =>
    if h : x = y then .isTrue (by subst h; rfl)
    else .isFalse (fun hc => h (by injection hc))
  | .ok _, .error _ => .isFalse (fun hc => Except.noConfusion hc)
  | .error _, .ok _ => .isFalse (fun hc => Except.noConfusion hc)

/-- Outcome of the submission segment of `createAndRunTest`
(run.go lines 528-564): the returned Test (or error), the new cluster
state, the calls issued for the Test resource, and the printed lines. -/
structure SubmitOut where
  result : Except GoError Test
  state : ClusterState
  calls : List ClusterCall
  output : List String
  deriving DecidableEq, Repr

/-- Create-or-update protocol of `createAndRunTest`
(run.go lines 528-564): attempt create; on `IsAlreadyExists` get the
current object, force its status phase to `Updating` and push the
status, copy the fetched resource version onto the new spec, update,
then reset the status to the zero value and push it; finally print the
created/updated notice. -/
def createOrUpdateTest (st : ClusterState) (test : Test) : SubmitOut :=
  let ns := test.namespaceName
  let n := test.name
  match clientCreate st test with
  | (.ok created, st1) =>
    { result := .ok created, state := st1, calls := [.create ns n],
      output := ["Test \x27" ++ n ++ "\x27 created"] }
  | (.error e, st1) =>
    if e = .alreadyExists then
      match clientGet st1 ns n with
      | .error eg =>
        { result := .error eg, state := st1,
          calls := [.create ns n, .get ns n], output := [] }
      | .ok clone0 =>
        -- Hold the resource from the operator controller
        let clone1 := { clone0 with status := { clone0.status with phase := .updating } }
        match clientStatusUpdate st1 clone1 with
        | (.error es, st2) =>
          { result := .error es, state := st2,
            calls := [.create ns n, .get ns n, .statusUpdate ns n], output := [] }
        | (.ok clone2, st2) =>
          -- Update the spec
          let test1 := { test with resourceVersion := clone2.resourceVersion }
          match clientUpdate st2 test1 with
          | (.error eu, st3) =>
            { result := .error eu, state := st3,
              calls := [.create ns n, .get ns n, .statusUpdate ns n, .update ns n],
              output := [] }
          | (.ok test2, st3) =>
            -- Reset status
            let test3 := { test2 with status := zeroTestStatus }
            match clientStatusUpdate st3 test3 with
            | (.error e2, st4) =>
              { result := .error e2, state := st4,
                calls := [.create ns n, .get ns n, .statusUpdate ns n,
                          .update ns n, .statusUpdate ns n],
                output := [] }
            | (.ok test4, st4) =>
              { result := .ok { test4 with status := zeroTestStatus },
                state := st4,
                calls := [.create ns n, .get ns n, .statusUpdate ns n,
                          .update ns n, .statusUpdate ns n],
                output := ["Test \x27" ++ n ++ "\x27 updated"] }
    else
      { result := .error e, state := st1, calls := [.create ns n], output := [] }

/-! ## Building the Test resource (`createAndRunTest`, build phase) -/

/-- Environment variable names injected into the test workload
(run.go lines 57-67). -/
def NamespaceEnv : String := "YAKS_NAMESPACE"

def RepositoriesEnv : String := "YAKS_REPOSITORIES"

def DependenciesEnv : String := "YAKS_DEPENDENCIES"

def LoggersEnv : String := "YAKS_LOGGERS"

def CucumberOptions : String := "CUCUMBER_OPTIONS"

def CucumberGlue : String := "CUCUMBER_GLUE"

def CucumberFeatures : String := "CUCUMBER_FEATURES"

def CucumberFilterTags : String := "CUCUMBER_FILTER_TAGS"

/-- External collaborators of the build phase: the sanitizers from
`pkg/util/kubernetes`, file loading, serialization and YAML
marshalling.  They are opaque to every claim proved below and enter as
plain function parameters. -/
structure Ext where
  sanitizeName : String → String
  sanitizeFileName : String → String
  loadData : String → Except GoError String
  toYAML : Test → Except GoError String
  toJSON : Test → Except GoError String
  marshalSettings : SettingsConfig → Except GoError String

/-- Modelled from the spec: `resolvePath` (declared outside run.go)
resolves a configured path relative to `BaseDir`. -/
def resolvePath (rc : RunConfig) (p : String) : String :=
  if goHasPre p "/" then p else rc.baseDir ++ "/" ++ p

/-- Resource-loading loops of `createAndRunTest`
(run.go lines 443-477, one loop per source list). -/
def loadResources (ext : Ext) (rc : RunConfig) : List String → Except GoError (List ResourceSpec)
  | [] => .ok []
  | r :: rest =>
    match ext.loadData (resolvePath rc r) with
    | .error e => .error e
    | .ok data =>
      match loadResources ext rc rest with
      | .error e => .error e
      | .ok tail => .ok ({ name := goPathBase r, content := data } :: tail)

/-- `newSettings` (run.go lines 720-755): an explicit settings file
wins; otherwise settings are synthesized from `Runtime.Settings` when
any of dependencies/repositories/loggers is non-empty. -/
def newSettings (ext : Ext) (o : RunCmdOptions) (rc : RunConfig) :
    Except GoError (Option SettingsSpec) :=
  if o.settings ≠ "" then
    match ext.loadData (resolvePath rc o.settings) with
    | .error e => .error e
    | .ok configData =>
      .ok (some { name := ext.sanitizeFileName o.settings, content := configData })
  else if rc.config.runtime.settings.dependencies.length > 0
      || rc.config.runtime.settings.repositories.length > 0
      || rc.config.runtime.settings.loggers.length > 0 then
    match ext.marshalSettings rc.config.runtime.settings with
    | .error e => .error e
    | .ok configData =>
      .ok (some { name := "yaks.settings.yaml", content := configData })
  else
    .ok Option.none

/-- Go `strings.Join xs ","`. -/
def joinComma (xs : List String) : String :=
  String.intercalate "," xs

/-- Entries appended to `env` by `setupEnvSettings` before the CLI
`-e` entries (run.go lines 667-707), in source order: namespace first,
then tag filter, feature filter, glue, cucumber options, repositories,
dependencies, loggers, and the run-config env entries. -/
def baseEnvSettings (o : RunCmdOptions) (rc : RunConfig) : List String :=
  (NamespaceEnv ++ "=" ++ rc.config.namespaceCfg.name)
  :: ((match o.tags with
      | some tags => [CucumberFilterTags ++ "=" ++ joinComma tags]
      | Option.none =>
        if rc.config.runtime.cucumber.tags.length > 0 then
          [CucumberFilterTags ++ "=" ++ joinComma rc.config.runtime.cucumber.tags]
        else [])
  ++ (match o.features with
      | some features => [CucumberFeatures ++ "=" ++ joinComma features]
      | Option.none => [])
  ++ (match o.glue with
      | some glue => [CucumberGlue ++ "=" ++ joinComma glue]
      | Option.none =>
        if rc.config.runtime.cucumber.glue.length > 0 then
          [CucumberGlue ++ "=" ++ joinComma rc.config.runtime.cucumber.glue]
        else [])
  ++ (if o.options.length > 0 then [CucumberOptions ++ "=" ++ o.options]
      else if rc.config.runtime.cucumber.options.length > 0 then
        [CucumberOptions ++ "=" ++ rc.config.runtime.cucumber.options]
      else [])
  ++ (if o.repositories.length > 0 then [RepositoriesEnv ++ "=" ++ joinComma o.repositories] else [])
  ++ (if o.dependencies.length > 0 then [DependenciesEnv ++ "=" ++ joinComma o.dependencies] else [])
  ++ (if o.logger.length > 0 then [LoggersEnv ++ "=" ++ joinComma o.logger] else [])
  ++ rc.config.runtime.env.map (fun ec => ec.name ++ "=" ++ ec.value))

/-- `setupEnvSettings` (run.go lines 666-718): the config-derived
entries followed by the CLI `-e` entries; the assembled list is stored
on the spec when non-empty (it always is — the namespace entry comes
first).  The Go function returns an error type but no path produces
one, so the embedding is pure. -/
def setupEnvSettings (o : RunCmdOptions) (rc : RunConfig) (test : Test) : Test :=
  let env := baseEnvSettings o rc ++ (match o.env with
    | some es => es
    | Option.none => [])
  if env.length > 0 then { test with spec := { test.spec with env := env } } else test

/-- Build phase of `createAndRunTest` (run.go lines 408-503): sanitize
the name, load the source, assemble spec fields in source order. -/
def buildTest (ext : Ext) (o : RunCmdOptions) (rc : RunConfig) (rawName : String) :
    Except GoError Test :=
  let ns := rc.config.namespaceCfg.name
  let fileName := ext.sanitizeFileName rawName
  let name := ext.sanitizeName rawName
  if name = "" then .error (.msg "unable to determine test name")
  else
    match ext.loadData rawName with
    | .error e => .error e
    | .ok data =>
      let test : Test :=
        { namespaceName := ns, name := name,
          spec := { source := { name := fileName, content := data, language := "gherkin" } } }
      let test := if o.dev then { test with spec := { test.spec with dev := true } } else test
      match loadResources ext rc rc.config.runtime.resources with
      | .error e => .error e
      | .ok rs1 =>
        match loadResources ext rc o.resources with
        | .error e => .error e
        | .ok rs2 =>
          match loadResources ext rc o.propertyFiles with
          | .error e => .error e
          | .ok rs3 =>
            let test := { test with spec := { test.spec with resources := rs1 ++ rs2 ++ rs3 } }
            match newSettings ext o rc with
            | .error e => .error e
            | .ok settingsOpt =>
              let test := match settingsOpt with
                | some settings => { test with spec := { test.spec with settings := settings } }
                | Option.none => test
              let test := setupEnvSettings o rc test
              let test := if rc.config.runtime.secret ≠ "" then
                  { test with spec := { test.spec with secret := rc.config.runtime.secret } }
                else test
              let test := if rc.config.runtime.selenium.image ≠ "" then
                  { test with spec := { test.spec with
                      selenium := { image := rc.config.runtime.selenium.image } } }
                else test
              let test := if rc.config.runtime.testContainers.enabled then
                  { test with spec := { test.spec with
                      kubeDock := { image := "joyrex2001/kubedock:0.7.0" } } }
                else test
              .ok test

/-- Outcome of `createAndRunTest` up to and including the submission:
the returned Test (`none` in dump mode), the cluster state, the calls
issued for the Test resource, and the printed lines. -/
structure RunOut where
  result : Except GoError (Option Test)
  state : ClusterState
  calls : List ClusterCall
  output : List String
  deriving DecidableEq, Repr

/-- `createAndRunTest` (run.go lines 407-564): build the resource,
short-circuit on a requested dump format (yaml/json serialized and
printed, anything else a configuration error), otherwise submit via
the create-or-update protocol.  The subsequent watch phase is embedded
separately (`selectTimeoutString`, `waitConditionPred`). -/
def createAndRunTest (ext : Ext) (o : RunCmdOptions) (rc : RunConfig)
    (st : ClusterState) (rawName : String) : RunOut :=
  match buildTest ext o rc rawName with
  | .error e => { result := .error e, state := st, calls := [], output := [] }
  | .ok test =>
    if o.dumpFormat = "" then
      let s := createOrUpdateTest st test
      { result := s.result.map some, state := s.state, calls := s.calls, output := s.output }
    else if o.dumpFormat = "yaml" then
      match ext.toYAML test with
      | .error e => { result := .error e, state := st, calls := [], output := [] }
      | .ok data => { result := .ok Option.none, state := st, calls := [], output := [data] }
    else if o.dumpFormat = "json" then
      match ext.toJSON test with
      | .error e => { result := .error e, state := st, calls := [], output := [] }
      | .ok data => { result := .ok Option.none, state := st, calls := [], output := [data] }
    else
      { result := .error (.msg ("invalid dump output format option \x27" ++ o.dumpFormat
          ++ "\x27, should be one of: yaml|json")),
        state := st, calls := [], output := [] }

/-! ## Step skip conditions (`skipStep`, run.go lines 850-889) -/

/-- Loop body of `skipStep`, threading the mutable `skipStep` variable:
per clause, `os=<v>` sets it to `v != GOOS`; `env:<NAME>` with the
variable set and no expected value `continue`s without the end-of-loop
check; `env:<NAME>=<v>` sets it to `v != value`, or to `true` when the
variable is unset; the loop returns `true` as soon as the variable is
true at the check.  An `os` clause without a value would panic in Go
on the missing index; `getD` stands in for that unreachable access. -/
def skipStepLoop (goos : String) (lookupEnv : String → Option String) :
    List String → Bool → Bool
  | [], _ => false
  | condition :: rest, skip0 =>
    let keyValue := if goContainsChar condition '=' then goSplit condition "=" else [condition]
    let key := keyValue.headD ""
    let skip1 := if key = "os" then decide (keyValue.getD 1 "" ≠ goos) else skip0
    if goHasPre key "env:" then
      match lookupEnv (goTrimPre key "env:") with
      | some value =>
        -- support env name check when no expected value is given
        if keyValue.length = 1 then
          skipStepLoop goos lookupEnv rest skip1
        else
          let skip2 := decide (keyValue.getD 1 "" ≠ value)
          if skip2 then true else skipStepLoop goos lookupEnv rest skip2
      | Option.none => true
    else
      if skip1 then true else skipStepLoop goos lookupEnv rest skip1

/-- `skipStep` (run.go lines 850-889): split the `If` field on
`" && "` and scan the clauses; an empty field never skips.  The current
OS and the process environment are parameters. -/
def skipStep (goos : String) (lookupEnv : String → Option String) (step : StepConfig) : Bool :=
  if step.If = "" then false
  else skipStepLoop goos lookupEnv (goSplit step.If " && ") false

/-! ## Lifecycle hooks (`runSteps`/`runScript`, run.go lines 789-930) -/

/-- Placeholder substitution of `resolve` (run.go lines 926-930). -/
def resolveScript (goos goarch : String) (fileName : String) : String :=
  goReplaceAll (goReplaceAll fileName "\x7b\x7bos.type\x7d\x7d" goos)
    "\x7b\x7bos.arch\x7d\x7d" goarch

/-- External collaborators of the hook runner: current OS/arch, the
process environment, duration parsing, the process-wide default
timeout and the outcome of executing a script file (keyed by its
resolved path) or an inline command (keyed by its text; the temporary
file Go materializes it into is an executed-content detail).  Scripts
run with the namespace and base directory in their environment; those
only reach the subprocess, so they are absorbed into the outcome
functions. -/
structure StepsEnv where
  goos : String
  goarch : String
  lookupEnv : String → Option String
  parseDuration : String → Option Nat
  defaultTimeout : String
  execScript : String → Except GoError Unit
  execRun : String → Except GoError Unit

/-- `runScript` (run.go lines 891-924): an empty step timeout falls
back to the process default; a malformed duration is an error; then
the subprocess outcome decides. -/
def runScript (E : StepsEnv) (exec : String → Except GoError Unit)
    (scriptFile : String) (timeout : String) : Except GoError Unit :=
  let t := if timeout = "" then E.defaultTimeout else timeout
  match E.parseDuration t with
  | Option.none => .error (.msg ("time: invalid duration " ++ t))
  | some _ => exec (resolveScript E.goos E.goarch scriptFile)

/-- Effect of one non-skipped step in the `runSteps` loop
(run.go lines 791-844): default the name, run the script part and then
the inline part, wrapping a failure of either into the
`Failed to run <desc>` error returned to the caller. -/
def runStepEffect (E : StepsEnv) (idx : Nat) (step : StepConfig) : Except GoError Unit :=
  let name := if step.name = "" then "step-" ++ toString idx else step.name
  match (if step.script ≠ "" then runScript E E.execScript step.script step.timeout
         else .ok ()) with
  | .error e => .error (.msg ("Failed to run " ++ name ++ ": " ++ e.message))
  | .ok _ =>
    if step.run ≠ "" then
      match runScript E E.execRun step.run step.timeout with
      | .error e => .error (.msg ("Failed to run " ++ name ++ ": " ++ e.message))
      | .ok _ => .ok ()
    else .ok ()

/-- `runSteps` loop (`for idx, step := range steps`), with the running
index made explicit; alongside the Go return value, the list of
indices of the steps actually attempted (not skipped) is recorded, so
that theorems can speak about which steps ran. -/
def runStepsAux (E : StepsEnv) (idx : Nat) : List StepConfig → Except GoError Unit × List Nat
  | [] => (.ok (), [])
  | step :: rest =>
    if skipStep E.goos E.lookupEnv step then runStepsAux E (idx + 1) rest
    else
      match runStepEffect E idx step with
      | .error e => (.error e, [idx])
      | .ok _ =>
        let (r, tr) := runStepsAux E (idx + 1) rest
        (r, idx :: tr)

/-- `runSteps` (run.go lines 789-848).  The namespace and base
directory arguments only reach the subprocess environment and are
carried for signature fidelity. -/
def runSteps (E : StepsEnv) (steps : List StepConfig) (namespaceName baseDir : String) :
    Except GoError Unit × List Nat :=
  runStepsAux E 0 steps

/-! ## Phase watcher (`createAndRunTest`, wait phase) -/

/-- Timeout string selection of the non-dev watcher goroutine
(run.go lines 602-609): the CLI flag when non-empty, else the
run-config timeout when non-empty, else the process default. -/
def selectTimeoutString (flagTimeout cfgTimeout defaultTimeout : String) : String :=
  if flagTimeout ≠ "" then flagTimeout
  else if cfgTimeout ≠ "" then cfgTimeout
  else defaultTimeout

/-- Wait timeout resolution (run.go lines 611-615): parse the selected
string; on a parse failure log and fall back to the parsed process
default (whose own parse error Go discards, leaving the zero
duration). -/
def resolveWaitTimeout (parseDuration : String → Option Nat)
    (defaultTimeout flagTimeout cfgTimeout : String) : Nat :=
  match parseDuration (selectTimeoutString flagTimeout cfgTimeout defaultTimeout) with
  | some d => d
  | Option.none => (parseDuration defaultTimeout).getD 0

/-- Condition predicate of the non-dev watcher (run.go lines 617-631):
given the polled object (`none` when it is not a Test) and the current
`status` tracker, return whether the wait is over together with the
updated tracker. -/
def waitConditionPred (obj : Option Test) (status : TestPhase) : Bool × TestPhase :=
  match obj with
  | some val =>
    let status' := if val.status.phase ≠ TestPhase.none then val.status.phase else status
    (decide (val.status.phase = TestPhase.deleting
        ∨ val.status.phase = TestPhase.error
        ∨ val.status.phase = TestPhase.passed
        ∨ val.status.phase = TestPhase.failed), status')
  | Option.none => (false, status)

/-- The `status` tracker after a sequence of observations, starting
from its initialization `TestPhaseNew` (run.go line 567). -/
def trackStatus (obs : List (Option Test)) : TestPhase :=
  obs.foldl (fun st o => (waitConditionPred o st).2) TestPhase.new

/-- The non-`None` phases among the observed objects, in order. -/
def nonNonePhases (obs : List (Option Test)) : List TestPhase :=
  obs.filterMap (fun o => match o with
    | some val => if val.status.phase ≠ TestPhase.none then some val.status.phase else Option.none
    | Option.none => Option.none)

/-- Specification-side view of the tracker: the last non-`None` phase
among the observed Tests, defaulting to `New`. -/
def lastObservedPhase (obs : List (Option Test)) : TestPhase :=
  (nonNonePhases obs).getLast?.getD TestPhase.new

/-! ## Run coordinator (`runTest`/`runTestGroup`/`run`) -/

/-- One-line error suite produced by `handleTestError`
(run.go lines 276-285). -/
def errorSuite (e : GoError) : TestSuite :=
  { errors := [reasonForError e ++ " - " ++ e.message], results := [] }

/-- Suites appended for one `createAndRunTest` outcome
(run.go lines 200-212 and 259-271).  When a Test is returned its
results are attached and the suite is appended to the aggregate
*before* the trailing error append; since Go copies the `TestSuite`
value into the results slice, that later `suite.Errors` append is
invisible in the aggregate, so the appended suite carries only the
attached results.  When no Test is returned a non-nil error goes
through `handleTestError`; with neither (dump mode) nothing is
appended. -/
def suitesOfOutcome : Option Test × Option GoError → List TestSuite
  | (some t, _) => [{ errors := [], results := t.status.results }]
  | (Option.none, some e) => [errorSuite e]
  | (Option.none, Option.none) => []

/-- Directory tree handed to a group run; Go discovers it through
`ioutil.ReadDir`, here the listing travels with the call. -/
inductive FsEntry where
  | file (name : String)
  | dir (name : String) (entries : List FsEntry)
  deriving Repr

/-- External collaborators of the coordinator: client construction,
config resolution, temporary-namespace creation (handle and error, as
`createTempNamespace` returns both), artifact upload, directory
listing outcome, the hook-runner environment and the per-source
outcome of `createAndRunTest` (whose internals are embedded above and
abstracted here to its returned pair). -/
structure OrchestratorEnv where
  getClient : Except GoError Unit
  getRunConfig : String → Except GoError RunConfig
  createTempNamespace : String → Option String × Option GoError
  upload : Except GoError Unit
  readDir : String → Except GoError Unit
  stepsEnv : StepsEnv
  runOne : String → Option Test × Option GoError

/-- Options of the coordinator that decide control flow. -/
structure Opts where
  wait : Bool := true

/-- Outcome of `runTest`: the suites appended to the aggregate,
whether `deleteTempNamespace` was scheduled (deferred), whether the
Post hooks were attempted (the deferred `runSteps(Post)` of line 194),
and the Pre/Post hook results. -/
structure TestRunOut where
  suites : List TestSuite
  teardownScheduled : Bool
  postAttempted : Bool
  preResult : Option GoError
  postResult : Option GoError
  deriving Repr

/-- Continuation of `runTest` from the artifact upload on
(run.go lines 189-213); `sched` records whether namespace teardown was
deferred.  The Post hooks are registered via `defer` before the Pre
hooks run, so from that point they are attempted on every exit path
and their error is discarded. -/
def runTestCont (E : OrchestratorEnv) (source : String) (rc : RunConfig) (sched : Bool) :
    TestRunOut :=
  match E.upload with
  | .error e =>
    { suites := [errorSuite e], teardownScheduled := sched, postAttempted := false,
      preResult := Option.none, postResult := Option.none }
  | .ok _ =>
    let postRes := (runSteps E.stepsEnv rc.post rc.config.namespaceCfg.name rc.baseDir).1
    let postErr := match postRes with
      | .error e => some e
      | .ok _ => Option.none
    match (runSteps E.stepsEnv rc.pre rc.config.namespaceCfg.name rc.baseDir).1 with
    | .error e =>
      { suites := [errorSuite e], teardownScheduled := sched, postAttempted := true,
        preResult := some e, postResult := postErr }
    | .ok _ =>
      { suites := suitesOfOutcome (E.runOne source), teardownScheduled := sched,
        postAttempted := true, preResult := Option.none, postResult := postErr }

/-- `runTest` (run.go lines 160-213).  For a temporary namespace the
teardown is deferred as soon as a handle exists and
`AutoRemove && Wait` holds — even when `createTempNamespace` also
reports an error, in which case the source still aborts. -/
def runTest (E : OrchestratorEnv) (o : Opts) (source : String) : TestRunOut :=
  match E.getClient with
  | .error e =>
    { suites := [errorSuite e], teardownScheduled := false, postAttempted := false,
      preResult := Option.none, postResult := Option.none }
  | .ok _ =>
    match E.getRunConfig source with
    | .error e =>
      { suites := [errorSuite e], teardownScheduled := false, postAttempted := false,
        preResult := Option.none, postResult := Option.none }
    | .ok rc =>
      if rc.config.namespaceCfg.temporary then
        match E.createTempNamespace source with
        | (some _, Option.none) =>
          runTestCont E source rc (rc.config.namespaceCfg.autoRemove && o.wait)
        | (some _, some e) =>
          { suites := [errorSuite e],
            teardownScheduled := rc.config.namespaceCfg.autoRemove && o.wait,
            postAttempted := false, preResult := Option.none, postResult := Option.none }
        | (Option.none, some e) =>
          { suites := [errorSuite e], teardownScheduled := false, postAttempted := false,
            preResult := Option.none, postResult := Option.none }
        | (Option.none, Option.none) => runTestCont E source rc false
      else runTestCont E source rc false

/-- Outcome of `runTestGroup` for one invocation. -/
structure GroupOut where
  suites : List TestSuite
  teardownScheduled : Bool
  postAttempted : Bool
  deriving Repr

/-- The per-entry loop of `runTestGroup` (run.go lines 254-273):
subdirectories recurse into a fresh full `runTestGroup` when
`Recursive` is set, matching `.feature` entries each get their own
suite, everything else is skipped; `recurse` is the recursive group
call at the reduced fuel. -/
def groupLoop (E : OrchestratorEnv) (rc : RunConfig)
    (recurse : String → List FsEntry → GroupOut) (source : String) :
    List FsEntry → List TestSuite
  | [] => []
  | e :: rest =>
    (match e with
     | .dir n sub =>
       if rc.config.recursive then (recurse (pathJoin source n) sub).suites
       else if goHasSuffix n ".feature" then suitesOfOutcome (E.runOne (pathJoin source n))
       else []
     | .file n =>
       if goHasSuffix n ".feature" then suitesOfOutcome (E.runOne (pathJoin source n))
       else [])
    ++ groupLoop E rc recurse source rest

/-- `runTestGroup` (run.go lines 215-274).  The fuel bounds the
directory-tree depth (Go recursion is bounded by the filesystem); any
fuel larger than the tree depth yields the Go behavior.  Unlike
`runTest`, a `createTempNamespace` error returns before the teardown
is deferred. -/
def runTestGroup (E : OrchestratorEnv) (o : Opts) :
    Nat → String → List FsEntry → GroupOut
  | 0, _, _ => { suites := [], teardownScheduled := false, postAttempted := false }
  | fuel + 1, source, entries =>
    match E.getClient with
    | .error e => { suites := [errorSuite e], teardownScheduled := false, postAttempted := false }
    | .ok _ =>
      match E.getRunConfig source with
      | .error e => { suites := [errorSuite e], teardownScheduled := false, postAttempted := false }
      | .ok rc =>
        match (if rc.config.namespaceCfg.temporary then
                 match E.createTempNamespace source with
                 | (_, some e) => Sum.inl e
                 | (nsOpt, Option.none) =>
                   Sum.inr (nsOpt.isSome && rc.config.namespaceCfg.autoRemove && o.wait)
               else Sum.inr false) with
        | Sum.inl e =>
          { suites := [errorSuite e], teardownScheduled := false, postAttempted := false }
        | Sum.inr sched =>
          match E.upload with
          | .error e =>
            { suites := [errorSuite e], teardownScheduled := sched, postAttempted := false }
          | .ok _ =>
            match E.readDir source with
            | .error e =>
              { suites := [errorSuite e], teardownScheduled := sched, postAttempted := false }
            | .ok _ =>
              match (runSteps E.stepsEnv rc.pre rc.config.namespaceCfg.name rc.baseDir).1 with
              | .error e =>
                { suites := [errorSuite e], teardownScheduled := sched, postAttempted := true }
              | .ok _ =>
                { suites := groupLoop E rc (runTestGroup E o fuel) source entries,
                  teardownScheduled := sched, postAttempted := true }

/-- Modelled from the spec: `hasErrors` (declared outside run.go) —
the run fails when any suite recorded errors (spec section 4.6). -/
def hasErrors (results : TestResults) : Bool :=
  results.suites.any (fun s => !s.errors.isEmpty)

/-- The group branch of `run` (run.go lines 147-157): aggregate the
suites and fail the invocation when any suite has errors. -/
def runGroupCommand (E : OrchestratorEnv) (o : Opts) (fuel : Nat)
    (source : String) (entries : List FsEntry) : Except GoError Unit × TestResults :=
  let out := runTestGroup E o fuel source entries
  let results : TestResults := { suites := out.suites }
  (if hasErrors results then .error (.msg "There are test failures!") else .ok (), results)

/-! ## Shared fixtures for concrete witnesses -/

/-- Stub external collaborators for concrete evaluations. -/
def extStub : Ext :=
  { sanitizeName := fun s => s,
    sanitizeFileName := fun s => s,
    loadData := fun _ => .ok "Feature: sample",
    toYAML := fun _ => .ok "yaml-doc",
    toJSON := fun _ => .ok "json-doc",
    marshalSettings := fun _ => .ok "settings-doc" }

/-- Stub whose name sanitizer returns the empty string. -/
def extEmptyName : Ext :=
  { extStub with sanitizeName := fun _ => "" }

/-- Duration parser accepting only the string `30m`. -/
def parse30m : String → Option Nat :=
  fun s => if s = "30m" then some 1800 else Option.none

/-- A stored Test left over from a previous run. -/
def sampleStored : Test :=
  { namespaceName := "ns1", name := "mytest", resourceVersion := 5,
    spec := { source := { name := "old.feature", content := "old", language := "gherkin" } },
    status := { phase := TestPhase.failed, results := ["r"] } }

/-- A freshly built Test for the same address. -/
def sampleNew : Test :=
  { namespaceName := "ns1", name := "mytest",
    spec := { source := { name := "new.feature", content := "new", language := "gherkin" } } }

/-- A hook step whose script succeeds under `stepsEnvFailB`. -/
def stepA : StepConfig := { name := "a", script := "a.sh" }

/-- A hook step whose script fails under `stepsEnvFailB`. -/
def stepB : StepConfig := { name := "b", script := "b.sh" }

/-- Hook-runner environment where only `b.sh` fails. -/
def stepsEnvFailB : StepsEnv :=
  { goos := "linux", goarch := "amd64",
    lookupEnv := fun _ => Option.none,
    parseDuration := fun _ => some 60,
    defaultTimeout := "30m",
    execScript := fun p => if p = "b.sh" then .error (.msg "boom") else .ok (),
    execRun := fun _ => .ok () }

/-- Run configuration with no Pre hooks and a failing Post hook. -/
def rcPlain : RunConfig :=
  { config := { namespaceCfg := { name := "ns", temporary := false } },
    pre := [], post := [stepB] }

/-- Coordinator environment whose per-source run succeeds while the
Post hook fails. -/
def envPostFail : OrchestratorEnv :=
  { getClient := .ok (),
    getRunConfig := fun _ => .ok rcPlain,
    createTempNamespace := fun _ => (Option.none, Option.none),
    upload := .ok (),
    readDir := fun _ => .ok (),
    stepsEnv := stepsEnvFailB,
    runOne := fun _ => (some { status := { results := ["ok"] } }, Option.none) }

/-- Run configuration for a temporary auto-removed namespace. -/
def rcTemp : RunConfig :=
  { config := { namespaceCfg := { name := "tmp", temporary := true, autoRemove := true } } }

/-- Coordinator environment that creates its temporary namespace
successfully. -/
def envTemp : OrchestratorEnv :=
  { getClient := .ok (),
    getRunConfig := fun _ => .ok rcTemp,
    createTempNamespace := fun _ => (some "yaks-123", Option.none),
    upload := .ok (),
    readDir := fun _ => .ok (),
    stepsEnv := stepsEnvFailB,
    runOne := fun _ => (Option.none, Option.none) }

/-- Coordinator environment for a group run where only `d/a.feature`
reconciles successfully. -/
def envGroup : OrchestratorEnv :=
  { getClient := .ok (),
    getRunConfig := fun _ => .ok rcPlain,
    createTempNamespace := fun _ => (Option.none, Option.none),
    upload := .ok (),
    readDir := fun _ => .ok (),
    stepsEnv := stepsEnvFailB,
    runOne := fun p =>
      if p = "d/a.feature" then (some { status := { results := ["ok"] } }, Option.none)
      else (Option.none, some (.msg "resource error")) }

/-! ## List helper lemmas -/

theorem getLast?_getD_cons {α : Type _} : ∀ (l : List α) (a d : α),
    (a :: l).getLast?.getD d = l.getLast?.getD a
  | [], _, _ => rfl
  | b :: m, a, d => by
    rw [List.getLast?_cons_cons]
    exact (getLast?_getD_cons m b d).trans (getLast?_getD_cons m b a).symm

/-- The `status` tracker is a fold whose value is the last non-`None`
phase, whatever the initial phase. -/
theorem trackStatus_foldl (obs : List (Option Test)) : ∀ (init : TestPhase),
    obs.foldl (fun st o => (waitConditionPred o st).2) init =
      (nonNonePhases obs).getLast?.getD init := by
  induction obs with
  | nil => intro init; simp [nonNonePhases]
  | cons o rest ih =>
    intro init
    cases o with
    | none =>
      rw [List.foldl_cons, show (waitConditionPred Option.none init).2 = init from rfl,
        ih init, show nonNonePhases (Option.none :: rest) = nonNonePhases rest from by
          simp [nonNonePhases]]
    | some val =>
      by_cases h : val.status.phase = TestPhase.none
      · rw [List.foldl_cons,
          show (waitConditionPred (some val) init).2 = init from by simp [waitConditionPred, h],
          ih init,
          show nonNonePhases (some val :: rest) = nonNonePhases rest from by
            simp [nonNonePhases, h]]
      · rw [List.foldl_cons,
          show (waitConditionPred (some val) init).2 = val.status.phase from by
            simp [waitConditionPred, h],
          ih val.status.phase,
          show nonNonePhases (some val :: rest) = val.status.phase :: nonNonePhases rest from by
            simp [nonNonePhases, h],
          getLast?_getD_cons]

/-! ## Cluster-state lemmas -/

theorem findTest_key {st : ClusterState} {ns n : String} {t : Test}
    (h : findTest st ns n = some t) : t.namespaceName = ns ∧ t.name = n := by
  have hp := List.find?_some h
  simpa [Bool.and_eq_true, decide_eq_true_eq] using hp

theorem findTest_replaceTest {st : ClusterState} {ns n : String} {x : Test} (t' : Test)
    (h : findTest st ns n = some x)
    (hns : t'.namespaceName = ns) (hn : t'.name = n) :
    findTest (replaceTest st t') ns n = some t' := by
  induction st with
  | nil => simp [findTest] at h
  | cons u rest ih =>
    by_cases hp : (u.namespaceName = ns ∧ u.name = n)
    · have hrep : replaceTest (u :: rest) t' = t' :: replaceTest rest t' := by
        unfold replaceTest
        rw [List.map_cons, if_pos (by rw [hns, hn]; exact hp)]
      rw [hrep]
      unfold findTest
      rw [List.find?_cons_of_pos _ (by simp [hns, hn])]
    · have hrep : replaceTest (u :: rest) t' = u :: replaceTest rest t' := by
        unfold replaceTest
        rw [List.map_cons, if_neg (by rw [hns, hn]; exact hp)]
      have htail : findTest rest ns n = some x := by
        unfold findTest at h
        rwa [List.find?_cons_of_neg _ (by simpa using hp)] at h
      rw [hrep]
      unfold findTest
      rw [List.find?_cons_of_neg _ (by simpa using hp)]
      have hres := ih htail
      unfold findTest at hres
      exact hres

theorem countTest_replaceTest (st : ClusterState) {ns n : String} (t' : Test)
    (hns : t'.namespaceName = ns) (hn : t'.name = n) :
    countTest (replaceTest st t') ns n = countTest st ns n := by
  induction st with
  | nil => rfl
  | cons u rest ih =>
    by_cases hp : (u.namespaceName = ns ∧ u.name = n)
    · have hrep : replaceTest (u :: rest) t' = t' :: replaceTest rest t' := by
        unfold replaceTest
        rw [List.map_cons, if_pos (by rw [hns, hn]; exact hp)]
      rw [hrep]
      unfold countTest
      rw [List.filter_cons_of_pos (by simp [hns, hn]),
        List.filter_cons_of_pos (by simp [hp.1, hp.2])]
      simpa [countTest] using ih
    · have hrep : replaceTest (u :: rest) t' = u :: replaceTest rest t' := by
        unfold replaceTest
        rw [List.map_cons, if_neg (by rw [hns, hn]; exact hp)]
      rw [hrep]
      unfold countTest
      rw [List.filter_cons_of_neg (by simpa using hp),
        List.filter_cons_of_neg (by simpa using hp)]
      simpa [countTest] using ih

/-- Evaluation of `createOrUpdateTest` when the address is taken: the
full update protocol runs; `stored` passes through phase `Updating`,
receives the new spec at the fetched resource version, and ends with a
zeroed status. -/
theorem createOrUpdateTest_existing (st : ClusterState) (test stored : Test)
    (hf : findTest st test.namespaceName test.name = some stored) :
    createOrUpdateTest st test =
      { result := .ok { stored with
          spec := test.spec, status := zeroTestStatus,
          resourceVersion := stored.resourceVersion + 3 },
        state := replaceTest (replaceTest (replaceTest st
          { stored with
              status := { stored.status with phase := TestPhase.updating },
              resourceVersion := stored.resourceVersion + 1 })
          { stored with
              spec := test.spec,
              status := { stored.status with phase := TestPhase.updating },
              resourceVersion := stored.resourceVersion + 2 })
          { stored with
              spec := test.spec, status := zeroTestStatus,
              resourceVersion := stored.resourceVersion + 3 },
        calls := [.create test.namespaceName test.name, .get test.namespaceName test.name,
          .statusUpdate test.namespaceName test.name, .update test.namespaceName test.name,
          .statusUpdate test.namespaceName test.name],
        output := ["Test \x27" ++ test.name ++ "\x27 updated"] } := by
  obtain ⟨hns, hn⟩ := findTest_key hf
  obtain ⟨sns, sn, srv, sspec, sstat⟩ := stored
  dsimp only at hns hn
  subst hns
  subst hn
  have h4 : findTest (replaceTest st
      ⟨test.namespaceName, test.name, srv + 1, sspec,
        { sstat with phase := TestPhase.updating }⟩) test.namespaceName test.name =
      some ⟨test.namespaceName, test.name, srv + 1, sspec,
        { sstat with phase := TestPhase.updating }⟩ :=
    findTest_replaceTest _ hf rfl rfl
  have h6 : findTest (replaceTest (replaceTest st
      ⟨test.namespaceName, test.name, srv + 1, sspec,
        { sstat with phase := TestPhase.updating }⟩)
      ⟨test.namespaceName, test.name, srv + 2, test.spec,
        { sstat with phase := TestPhase.updating }⟩) test.namespaceName test.name =
      some ⟨test.namespaceName, test.name, srv + 2, test.spec,
        { sstat with phase := TestPhase.updating }⟩ :=
    findTest_replaceTest _ h4 rfl rfl
  simp only [createOrUpdateTest, clientCreate, clientGet, clientStatusUpdate, clientUpdate, hf]
  simp [h4, h6]

/-- Evaluation of `createOrUpdateTest` when the address is free: a
plain create, nothing else. -/
theorem createOrUpdateTest_fresh (st : ClusterState) (test : Test)
    (hf : findTest st test.namespaceName test.name = Option.none) :
    createOrUpdateTest st test =
      { result := .ok { test with resourceVersion := 1 },
        state := st ++ [{ test with resourceVersion := 1 }],
        calls := [.create test.namespaceName test.name],
        output := ["Test \x27" ++ test.name ++ "\x27 created"] } := by
  have h1 : clientCreate st test =
      (.ok { test with resourceVersion := 1 }, st ++ [{ test with resourceVersion := 1 }]) := by
    unfold clientCreate; rw [hf]
  unfold createOrUpdateTest
  rw [h1]

/-! ## Claim theorems -/

/-- C1: the submission implements create-or-update.  If and only if
the address is taken does the create fail with already-exists and the
protocol fetch the current object, push its status phase to Updating,
re-submit the spec at the fetched resource version, and push a zeroed
status, so that the returned Test and the stored Test both carry the
new spec with an empty status and the number of stored resources at
that address is unchanged (no duplicate); on a free address only the
create call is issued. -/
theorem createAndRunTest_create_or_update (st : ClusterState) (test : Test) :
    (∀ stored, findTest st test.namespaceName test.name = some stored →
      ∃ final : Test,
        (createOrUpdateTest st test).result = .ok final
        ∧ final.status = zeroTestStatus
        ∧ final.spec = test.spec
        ∧ (createOrUpdateTest st test).calls =
            [.create test.namespaceName test.name, .get test.namespaceName test.name,
             .statusUpdate test.namespaceName test.name, .update test.namespaceName test.name,
             .statusUpdate test.namespaceName test.name]
        ∧ findTest (createOrUpdateTest st test).state test.namespaceName test.name = some final
        ∧ countTest (createOrUpdateTest st test).state test.namespaceName test.name =
            countTest st test.namespaceName test.name
        ∧ (createOrUpdateTest st test).output = ["Test \x27" ++ test.name ++ "\x27 updated"])
    ∧ (findTest st test.namespaceName test.name = Option.none →
      (createOrUpdateTest st test).calls = [.create test.namespaceName test.name]
      ∧ (createOrUpdateTest st test).result = .ok { test with resourceVersion := 1 }
      ∧ (createOrUpdateTest st test).state = st ++ [{ test with resourceVersion := 1 }]
      ∧ (createOrUpdateTest st test).output = ["Test \x27" ++ test.name ++ "\x27 created"]) := by
  constructor
  · intro stored hf
    obtain ⟨hns, hn⟩ := findTest_key hf
    rw [createOrUpdateTest_existing st test stored hf]
    refine ⟨{ stored with
        spec := test.spec, status := zeroTestStatus,
        resourceVersion := stored.resourceVersion + 3 },
      rfl, rfl, rfl, rfl, ?_, ?_, rfl⟩
    · exact findTest_replaceTest _
        (findTest_replaceTest _ (findTest_replaceTest _ hf hns hn) hns hn) hns hn
    · have e3 := countTest_replaceTest
        (replaceTest (replaceTest st
          { stored with
              status := { stored.status with phase := TestPhase.updating },
              resourceVersion := stored.resourceVersion + 1 })
          { stored with
              spec := test.spec,
              status := { stored.status with phase := TestPhase.updating },
              resourceVersion := stored.resourceVersion + 2 })
        { stored with
            spec := test.spec, status := zeroTestStatus,
            resourceVersion := stored.resourceVersion + 3 } hns hn
      have e2 := countTest_replaceTest
        (replaceTest st
          { stored with
              status := { stored.status with phase := TestPhase.updating },
              resourceVersion := stored.resourceVersion + 1 })
        { stored with
            spec := test.spec,
            status := { stored.status with phase := TestPhase.updating },
            resourceVersion := stored.resourceVersion + 2 } hns hn
      have e1 := countTest_replaceTest st
        { stored with
            status := { stored.status with phase := TestPhase.updating },
            resourceVersion := stored.resourceVersion + 1 } hns hn
      exact e3.trans (e2.trans e1)
  · intro hf
    rw [createOrUpdateTest_fresh st test hf]
    exact ⟨rfl, rfl, rfl, rfl⟩

/-- Witness for C1: against a state holding a Test from a previous run at
the same address, the re-submission succeeds with the update protocol
and an empty status and without duplicating the resource; against the
empty state only a create is issued. -/
theorem createAndRunTest_create_or_update_witness :
    (∃ final : Test,
      (createOrUpdateTest [sampleStored] sampleNew).result = .ok final
      ∧ final.status = zeroTestStatus
      ∧ final.spec = sampleNew.spec
      ∧ (createOrUpdateTest [sampleStored] sampleNew).calls =
          [.create "ns1" "mytest", .get "ns1" "mytest", .statusUpdate "ns1" "mytest",
           .update "ns1" "mytest", .statusUpdate "ns1" "mytest"]
      ∧ findTest (createOrUpdateTest [sampleStored] sampleNew).state "ns1" "mytest" = some final
      ∧ countTest (createOrUpdateTest [sampleStored] sampleNew).state "ns1" "mytest" =
          countTest [sampleStored] "ns1" "mytest"
      ∧ (createOrUpdateTest [sampleStored] sampleNew).output =
          ["Test \x27mytest\x27 updated"])
    ∧ (createOrUpdateTest [] sampleNew).calls = [.create "ns1" "mytest"] := by
  constructor
  · exact (createAndRunTest_create_or_update [sampleStored] sampleNew).1 sampleStored (by decide)
  · exact ((createAndRunTest_create_or_update [] sampleNew).2 (by decide)).1

/-- The env list assembled by `setupEnvSettings` is always non-empty
(the namespace entry leads), so it is always stored on the spec. -/
theorem setupEnvSettings_env (o : RunCmdOptions) (rc : RunConfig) (test : Test) :
    (setupEnvSettings o rc test).spec.env =
      baseEnvSettings o rc ++ (match o.env with
        | some es => es
        | Option.none => []) := by
  unfold setupEnvSettings
  rw [if_pos (by simp [baseEnvSettings])]

set_option maxHeartbeats 1000000 in
/-- C9: every Test built by the build phase of `createAndRunTest` has
a non-empty `Spec.Env` whose first entry is
`YAKS_NAMESPACE=<configured namespace>`, and the CLI `-e` entries,
when present, sit after every config-derived entry. -/
theorem buildTest_env_invariant (ext : Ext) (o : RunCmdOptions) (rc : RunConfig)
    (rawName : String) :
    ∀ t, buildTest ext o rc rawName = .ok t →
      t.spec.env = baseEnvSettings o rc ++ (match o.env with
        | some es => es
        | Option.none => [])
      ∧ t.spec.env.head? = some (NamespaceEnv ++ "=" ++ rc.config.namespaceCfg.name)
      ∧ t.spec.env ≠ [] := by
  intro t h
  unfold buildTest at h
  by_cases hname : ext.sanitizeName rawName = ""
  · simp [hname] at h
  · simp only [hname] at h
    cases hdata : ext.loadData rawName with
    | error e => simp [hdata] at h
    | ok data =>
      simp only [hdata] at h
      cases hr1 : loadResources ext rc rc.config.runtime.resources with
      | error e => simp [hr1] at h
      | ok rs1 =>
        simp only [hr1] at h
        cases hr2 : loadResources ext rc o.resources with
        | error e => simp [hr2] at h
        | ok rs2 =>
          simp only [hr2] at h
          cases hr3 : loadResources ext rc o.propertyFiles with
          | error e => simp [hr3] at h
          | ok rs3 =>
            simp only [hr3] at h
            cases hset : newSettings ext o rc with
            | error e => simp [hset] at h
            | ok settingsOpt =>
              simp only [hset] at h
              injection h with h2
              subst h2
              refine ⟨?_, ?_, ?_⟩ <;> (repeat' split) <;>
                simp_all [setupEnvSettings_env, baseEnvSettings, NamespaceEnv]

/-- Witness for C9 at a concrete build: the CLI `-e` entry lands last,
after the namespace entry. -/
theorem buildTest_env_invariant_witness :
    ∃ t, buildTest extStub { env := some ["MY_VAR=1"] }
        { config := { namespaceCfg := { name := "demo" } } } "a.feature" = .ok t
      ∧ t.spec.env = ["YAKS_NAMESPACE=demo", "MY_VAR=1"]
      ∧ t.spec.env.head? = some "YAKS_NAMESPACE=demo" := by
  have hok : (buildTest extStub { env := some ["MY_VAR=1"] }
      { config := { namespaceCfg := { name := "demo" } } } "a.feature").toOption.isSome = true := by
    decide
  cases hb : buildTest extStub { env := some ["MY_VAR=1"] }
      { config := { namespaceCfg := { name := "demo" } } } "a.feature" with
  | error e => rw [hb] at hok; simp [Except.toOption] at hok
  | ok t =>
    have h := buildTest_env_invariant extStub { env := some ["MY_VAR=1"] }
      { config := { namespaceCfg := { name := "demo" } } } "a.feature" t hb
    refine ⟨t, rfl, ?_, ?_⟩
    · exact h.1.trans (by decide)
    · exact h.2.1.trans (by decide)

/-! Lemmas about the hook-runner loop. -/

theorem runStepsAux_append (E : StepsEnv) (l1 l2 : List StepConfig) : ∀ (i : Nat),
    runStepsAux E i (l1 ++ l2) =
      match runStepsAux E i l1 with
      | (.error e, tr) => (.error e, tr)
      | (.ok _, tr) =>
        ((runStepsAux E (i + l1.length) l2).1, tr ++ (runStepsAux E (i + l1.length) l2).2) := by
  induction l1 with
  | nil =>
    intro i
    simp [runStepsAux]
  | cons s l1 ih =>
    intro i
    have harith : i + 1 + l1.length = i + (l1.length + 1) := by omega
    by_cases hskip : skipStep E.goos E.lookupEnv s = true <;>
      cases heff : runStepEffect E i s <;>
        simp [runStepsAux, hskip, heff, ih (i + 1), harith] <;>
          (try (cases hrec : runStepsAux E (i + 1) l1 with
            | mk r tr => cases r <;> simp [hrec]))

theorem runStepsAux_trace_lt (E : StepsEnv) (l : List StepConfig) : ∀ (i : Nat),
    ∀ j ∈ (runStepsAux E i l).2, j < i + l.length := by
  induction l with
  | nil => intro i j hj; simp [runStepsAux] at hj
  | cons s l ih =>
    intro i j hj
    rw [List.length_cons]
    unfold runStepsAux at hj
    by_cases hskip : skipStep E.goos E.lookupEnv s = true
    · rw [if_pos hskip] at hj
      have := ih (i + 1) j hj
      omega
    · rw [if_neg hskip] at hj
      cases heff : runStepEffect E i s with
      | error e =>
        rw [heff] at hj
        simp at hj
        omega
      | ok _ =>
        rw [heff] at hj
        simp at hj
        rcases hj with hj | hj
        · omega
        · have := ih (i + 1) j hj
          omega

/-- C8: `runSteps` stops at the first step whose execution fails and
returns that error — the trace shows no later step is attempted — and
in `runTest` the Post hooks are attempted via the deferred call
whatever the Pre outcome, while a Post failure leaves the suite of a
source whose Pre/Run phase succeeded free of errors. -/
theorem runSteps_first_failure_deferred_post :
    (∀ (E : StepsEnv) (xs ys : List StepConfig) (s : StepConfig) (ns bd : String) (e : GoError),
      skipStep E.goos E.lookupEnv s = false →
      runStepEffect E xs.length s = .error e →
      (runSteps E xs ns bd).1 = .ok () →
      runSteps E (xs ++ s :: ys) ns bd = (.error e, (runSteps E xs ns bd).2 ++ [xs.length])
      ∧ ∀ j ∈ (runSteps E (xs ++ s :: ys) ns bd).2, j ≤ xs.length)
    ∧ (∀ (En : OrchestratorEnv) (o : Opts) (source : String) (rc : RunConfig),
      En.getClient = .ok () → En.getRunConfig source = .ok rc →
      rc.config.namespaceCfg.temporary = false → En.upload = .ok () →
      (runTest En o source).postAttempted = true
      ∧ (∀ t, (runSteps En.stepsEnv rc.pre rc.config.namespaceCfg.name rc.baseDir).1 = .ok () →
          En.runOne source = (some t, Option.none) →
          (runTest En o source).suites = [{ errors := [], results := t.status.results }]
          ∧ hasErrors { suites := (runTest En o source).suites } = false)) := by
  constructor
  · intro E xs ys s ns bd e hskip heff hok
    unfold runSteps at hok ⊢
    have happ := runStepsAux_append E xs (s :: ys) 0
    have hsy : runStepsAux E (0 + xs.length) (s :: ys) = (.error e, [xs.length]) := by
      rw [Nat.zero_add]
      unfold runStepsAux
      rw [if_neg (by simp [hskip]), heff]
    cases hxs : runStepsAux E 0 xs with
    | mk r tr =>
      rw [hxs] at hok happ
      cases r with
      | error e' => exact absurd hok (by simp)
      | ok u =>
        rw [hsy] at happ
        refine ⟨by rw [happ], ?_⟩
        rw [happ]
        intro j hj
        rcases List.mem_append.mp hj with hj | hj
        · have := runStepsAux_trace_lt E xs 0 j (by rw [hxs]; exact hj)
          omega
        · simp at hj
          omega
  · intro En o source rc hclient hconfig htemp hupload
    constructor
    · unfold runTest
      simp only [hclient, hconfig, htemp, Bool.false_eq_true, if_false]
      unfold runTestCont
      simp only [hupload]
      cases hpre : (runSteps En.stepsEnv rc.pre rc.config.namespaceCfg.name rc.baseDir).1 with
      | error e => simp [hpre]
      | ok u => simp [hpre]
    · intro t hpre hone
      have hsuites : (runTest En o source).suites =
          [{ errors := [], results := t.status.results }] := by
        unfold runTest
        simp only [hclient, hconfig, htemp, Bool.false_eq_true, if_false]
        unfold runTestCont
        simp only [hupload, hpre, hone]
        rfl
      exact ⟨hsuites, by simp [hasErrors, hsuites]⟩

/-- Witness for C8: with one failing step between two steps, the
result is that failure and the trace stops there; and a failing Post
hook leaves a clean suite while the Post hooks were attempted. -/
theorem runSteps_first_failure_deferred_post_witness :
    runSteps stepsEnvFailB [stepA, stepB, stepA] "ns" "." = (.error
        (.msg "Failed to run b: boom"), [0, 1])
    ∧ (runTest envPostFail { wait := true } "src.feature").postAttempted = true
    ∧ (runTest envPostFail { wait := true } "src.feature").suites =
        [{ errors := [], results := ["ok"] }]
    ∧ hasErrors { suites := (runTest envPostFail { wait := true } "src.feature").suites }
        = false := by
  have h1 := (runSteps_first_failure_deferred_post.1 stepsEnvFailB [stepA] [stepA] stepB
    "ns" "." (.msg "Failed to run b: boom") (by decide) (by decide) (by decide)).1
  have h2 := runSteps_first_failure_deferred_post.2 envPostFail { wait := true }
    "src.feature" rcPlain rfl rfl rfl rfl
  refine ⟨?_, h2.1, ?_, ?_⟩
  · have : runSteps stepsEnvFailB [stepA] "ns" "." = (.ok (), [0]) := by decide
    rw [show ([stepA] ++ stepB :: [stepA]) = [stepA, stepB, stepA] from rfl] at h1
    rw [h1, this]
    rfl
  · exact ((h2.2 { status := { results := ["ok"] } }) (by decide) rfl).1
  · exact ((h2.2 { status := { results := ["ok"] } }) (by decide) rfl).2

/-- C7: with a temporary namespace whose creation succeeds,
`deleteTempNamespace` is scheduled if and only if both
`Namespace.AutoRemove` and the wait flag hold, on the single-test path
and on the group path alike; in particular `Wait=false` leaves the
namespace in place. -/
theorem tempNamespace_teardown_iff (En : OrchestratorEnv) (o : Opts) (source : String)
    (rc : RunConfig) (ns : String)
    (hclient : En.getClient = .ok ()) (hconfig : En.getRunConfig source = .ok rc)
    (htemp : rc.config.namespaceCfg.temporary = true)
    (hns : En.createTempNamespace source = (some ns, Option.none)) :
    (runTest En o source).teardownScheduled = (rc.config.namespaceCfg.autoRemove && o.wait)
    ∧ ∀ (fuel : Nat) (entries : List FsEntry),
      (runTestGroup En o (fuel + 1) source entries).teardownScheduled =
        (rc.config.namespaceCfg.autoRemove && o.wait) := by
  constructor
  · unfold runTest
    simp only [hclient, hconfig, htemp, if_true, hns]
    unfold runTestCont
    cases hupl : En.upload with
    | error e => simp [hupl]
    | ok u =>
      simp only [hupl]
      cases hpre : (runSteps En.stepsEnv rc.pre rc.config.namespaceCfg.name rc.baseDir).1 with
      | error e => simp [hpre]
      | ok u2 => simp [hpre]
  · intro fuel entries
    unfold runTestGroup
    simp only [hclient, hconfig, htemp, if_true, hns, Option.isSome_some, Bool.true_and]
    cases hupl : En.upload with
    | error e => simp [hupl]
    | ok u =>
      simp only [hupl]
      cases hdir : En.readDir source with
      | error e => simp [hdir]
      | ok u2 =>
        simp only [hdir]
        cases hpre : (runSteps En.stepsEnv rc.pre rc.config.namespaceCfg.name rc.baseDir).1 with
        | error e => simp [hpre]
        | ok u3 => simp [hpre]

/-- Witness for C7: the same temporary auto-remove configuration
schedules teardown with `Wait=true` and leaves the namespace with
`Wait=false`, on both paths. -/
theorem tempNamespace_teardown_iff_witness :
    (runTest envTemp { wait := true } "d").teardownScheduled = true
    ∧ (runTest envTemp { wait := false } "d").teardownScheduled = false
    ∧ (runTestGroup envTemp { wait := true } 1 "d" []).teardownScheduled = true
    ∧ (runTestGroup envTemp { wait := false } 1 "d" []).teardownScheduled = false := by
  have h1 := tempNamespace_teardown_iff envTemp { wait := true } "d" rcTemp "yaks-123"
    rfl rfl rfl rfl
  have h2 := tempNamespace_teardown_iff envTemp { wait := false } "d" rcTemp "yaks-123"
    rfl rfl rfl rfl
  exact ⟨h1.1.trans (by decide), h2.1.trans (by decide),
    (h1.2 0 []).trans (by decide), (h2.2 0 []).trans (by decide)⟩

/-- C2: in a group run whose directory holds two matching files, one
reconciling successfully and the other failing, each outcome lands in
its own suite in directory order — the failure does not stop the other
file — the aggregate holds exactly one suite per matching file, and
the run command reports an overall failure because a suite recorded
errors. -/
theorem runTestGroup_failure_isolation (En : OrchestratorEnv) (o : Opts) (source : String)
    (rc : RunConfig) (t : Test) (e : GoError) (fuel : Nat)
    (hclient : En.getClient = .ok ()) (hconfig : En.getRunConfig source = .ok rc)
    (htemp : rc.config.namespaceCfg.temporary = false)
    (hupload : En.upload = .ok ()) (hdir : En.readDir source = .ok ())
    (hpre : (runSteps En.stepsEnv rc.pre rc.config.namespaceCfg.name rc.baseDir).1 = .ok ())
    (ha : En.runOne (pathJoin source "a.feature") = (some t, Option.none))
    (hb : En.runOne (pathJoin source "b.feature") = (Option.none, some e)) :
    (runTestGroup En o (fuel + 1) source [.file "a.feature", .file "b.feature"]).suites =
      [{ errors := [], results := t.status.results }, errorSuite e]
    ∧ (runTestGroup En o (fuel + 1) source [.file "b.feature", .file "a.feature"]).suites =
      [errorSuite e, { errors := [], results := t.status.results }]
    ∧ (runTestGroup En o (fuel + 1) source
        [.file "a.feature", .file "b.feature"]).suites.length = 2
    ∧ hasErrors { suites := (runTestGroup En o (fuel + 1) source
        [.file "a.feature", .file "b.feature"]).suites } = true
    ∧ (runGroupCommand En o (fuel + 1) source [.file "a.feature", .file "b.feature"]).1 =
        .error (.msg "There are test failures!") := by
  have hsuffix : goHasSuffix "a.feature" ".feature" = true := by decide
  have hsuffixB : goHasSuffix "b.feature" ".feature" = true := by decide
  have hAB : (runTestGroup En o (fuel + 1) source
      [.file "a.feature", .file "b.feature"]).suites =
      [{ errors := [], results := t.status.results }, errorSuite e] := by
    unfold runTestGroup
    simp only [hclient, hconfig, htemp, Bool.false_eq_true, if_false, hupload, hdir, hpre]
    simp only [groupLoop, hsuffix, hsuffixB, if_true, ha, hb, suitesOfOutcome,
      List.cons_append, List.nil_append, List.append_nil]
  have hBA : (runTestGroup En o (fuel + 1) source
      [.file "b.feature", .file "a.feature"]).suites =
      [errorSuite e, { errors := [], results := t.status.results }] := by
    unfold runTestGroup
    simp only [hclient, hconfig, htemp, Bool.false_eq_true, if_false, hupload, hdir, hpre]
    simp only [groupLoop, hsuffix, hsuffixB, if_true, ha, hb, suitesOfOutcome,
      List.cons_append, List.nil_append, List.append_nil]
  have hlen : (runTestGroup En o (fuel + 1) source
      [.file "a.feature", .file "b.feature"]).suites.length = 2 := by
    rw [hAB]; rfl
  have herr : hasErrors { suites := (runTestGroup En o (fuel + 1) source
      [.file "a.feature", .file "b.feature"]).suites } = true := by
    rw [hAB]; simp [hasErrors, errorSuite]
  refine ⟨hAB, hBA, hlen, herr, ?_⟩
  unfold runGroupCommand
  simp only [herr, if_true]

/-- Witness for C2 at a concrete environment where `d/a.feature`
succeeds and `d/b.feature` fails with a resource error. -/
theorem runTestGroup_failure_isolation_witness :
    (runTestGroup envGroup { wait := true } 1 "d"
      [.file "a.feature", .file "b.feature"]).suites =
      [{ errors := [], results := ["ok"] },
       { errors := [" - resource error"], results := [] }]
    ∧ (runGroupCommand envGroup { wait := true } 1 "d"
        [.file "a.feature", .file "b.feature"]).1 =
        .error (.msg "There are test failures!") := by
  have h := runTestGroup_failure_isolation envGroup { wait := true } "d" rcPlain
    { status := { results := ["ok"] } } (.msg "resource error") 0
    rfl rfl rfl rfl rfl (by decide) (by decide) (by decide)
  exact ⟨h.1.trans (by decide), h.2.2.2.2⟩

/-! Concrete-string evaluations used by the skip-condition claim. -/

theorem evSplitMain : goSplit "os=linux && env:FOO=bar" " && " = ["os=linux", "env:FOO=bar"] := by
  decide

theorem evSplitEnvFoo : goSplit "env:FOO" " && " = ["env:FOO"] := by decide

theorem evSplitEnvFooBar : goSplit "env:FOO=bar" " && " = ["env:FOO=bar"] := by decide

theorem evContainsOs : goContainsChar "os=linux" '=' = true := by decide

theorem evSplitOsEq : goSplit "os=linux" "=" = ["os", "linux"] := by decide

theorem evContainsEnvFoo : goContainsChar "env:FOO" '=' = false := by decide

theorem evContainsEnvFooBar : goContainsChar "env:FOO=bar" '=' = true := by decide

theorem evSplitEnvFooBarEq : goSplit "env:FOO=bar" "=" = ["env:FOO", "bar"] := by decide

theorem evPreOs : goHasPre "os" "env:" = false := by decide

theorem evPreEnvFoo : goHasPre "env:FOO" "env:" = true := by decide

theorem evTrimEnvFoo : goTrimPre "env:FOO" "env:" = "FOO" := by decide

/-- C3: `skipStep` evaluates `If` as a conjunction split on `" && "`:
`os=linux && env:FOO=bar` runs (does not skip) exactly when the
current OS is linux and `FOO` equals `bar`; the clause `env:FOO`
without `=` never skips while `FOO` is set, whatever its value; and
with `FOO` unset either env clause naming `FOO` skips the step. -/
theorem skipStep_conjunction_semantics :
    (∀ (goos : String) (lookupEnv : String → Option String),
      skipStep goos lookupEnv { If := "os=linux && env:FOO=bar" } = false ↔
        (goos = "linux" ∧ lookupEnv "FOO" = some "bar"))
    ∧ (∀ (goos : String) (lookupEnv : String → Option String) (v : String),
      lookupEnv "FOO" = some v →
      skipStep goos lookupEnv { If := "env:FOO" } = false)
    ∧ (∀ (goos : String) (lookupEnv : String → Option String),
      lookupEnv "FOO" = Option.none →
      skipStep goos lookupEnv { If := "env:FOO" } = true
      ∧ skipStep goos lookupEnv { If := "env:FOO=bar" } = true) := by
  refine ⟨fun goos lookupEnv => ?_, fun goos lookupEnv v h => ?_, fun goos lookupEnv h => ?_⟩
  · by_cases hg : goos = "linux"
    · subst hg
      cases hl : lookupEnv "FOO" with
      | none =>
        simp [skipStep, skipStepLoop, evSplitMain, evContainsOs, evSplitOsEq,
          evContainsEnvFooBar, evSplitEnvFooBarEq, evPreOs, evPreEnvFoo, evTrimEnvFoo, hl]
      | some v =>
        by_cases hv : v = "bar"
        · simp [skipStep, skipStepLoop, evSplitMain, evContainsOs, evSplitOsEq,
            evContainsEnvFooBar, evSplitEnvFooBarEq, evPreOs, evPreEnvFoo, evTrimEnvFoo,
            hl, hv]
        · have hv' : ¬ ("bar" = v) := fun hc => hv hc.symm
          simp [skipStep, skipStepLoop, evSplitMain, evContainsOs, evSplitOsEq,
            evContainsEnvFooBar, evSplitEnvFooBarEq, evPreOs, evPreEnvFoo, evTrimEnvFoo,
            hl, hv, hv']
    · have hg' : ¬ ("linux" = goos) := fun hc => hg hc.symm
      simp [skipStep, skipStepLoop, evSplitMain, evContainsOs, evSplitOsEq,
        evContainsEnvFooBar, evSplitEnvFooBarEq, evPreOs, evPreEnvFoo, evTrimEnvFoo, hg, hg']
  · simp [skipStep, skipStepLoop, evSplitEnvFoo, evContainsEnvFoo, evPreEnvFoo, evTrimEnvFoo, h]
  · constructor
    · simp [skipStep, skipStepLoop, evSplitEnvFoo, evContainsEnvFoo, evPreEnvFoo,
        evTrimEnvFoo, h]
    · simp [skipStep, skipStepLoop, evSplitEnvFooBar, evContainsEnvFooBar,
        evSplitEnvFooBarEq, evPreEnvFoo, evTrimEnvFoo, h]

/-- Witness for C3 at a concrete OS and environment. -/
theorem skipStep_conjunction_semantics_witness :
    skipStep "linux" (fun n => if n = "FOO" then some "bar" else Option.none)
      { If := "os=linux && env:FOO=bar" } = false
    ∧ skipStep "linux" (fun n => if n = "FOO" then some "whatever" else Option.none)
      { If := "env:FOO" } = false
    ∧ skipStep "linux" (fun _ => Option.none) { If := "env:FOO" } = true
    ∧ skipStep "linux" (fun _ => Option.none) { If := "env:FOO=bar" } = true :=
  ⟨(skipStep_conjunction_semantics.1 "linux"
      (fun n => if n = "FOO" then some "bar" else Option.none)).mpr ⟨rfl, by decide⟩,
   skipStep_conjunction_semantics.2.1 "linux"
     (fun n => if n = "FOO" then some "whatever" else Option.none) "whatever" (by decide),
   (skipStep_conjunction_semantics.2.2 "linux" (fun _ => Option.none) rfl).1,
   (skipStep_conjunction_semantics.2.2 "linux" (fun _ => Option.none) rfl).2⟩

/-- C5: the wait timeout is chosen with precedence CLI flag (when
non-empty) over run-config timeout (when non-empty) over the process
default, and a timeout string that fails to parse makes the watcher
fall back to the (parsed) default timeout and continue. -/
theorem waitTimeout_precedence_and_fallback (parseDuration : String → Option Nat)
    (defaultTimeout flagTimeout cfgTimeout : String) :
    (flagTimeout ≠ "" →
      selectTimeoutString flagTimeout cfgTimeout defaultTimeout = flagTimeout)
    ∧ (flagTimeout = "" → cfgTimeout ≠ "" →
      selectTimeoutString flagTimeout cfgTimeout defaultTimeout = cfgTimeout)
    ∧ (flagTimeout = "" → cfgTimeout = "" →
      selectTimeoutString flagTimeout cfgTimeout defaultTimeout = defaultTimeout)
    ∧ (∀ d, parseDuration (selectTimeoutString flagTimeout cfgTimeout defaultTimeout) = some d →
      resolveWaitTimeout parseDuration defaultTimeout flagTimeout cfgTimeout = d)
    ∧ (parseDuration (selectTimeoutString flagTimeout cfgTimeout defaultTimeout) = Option.none →
      ∀ d, parseDuration defaultTimeout = some d →
      resolveWaitTimeout parseDuration defaultTimeout flagTimeout cfgTimeout = d) := by
  refine ⟨fun h => ?_, fun h1 h2 => ?_, fun h1 h2 => ?_, fun d hd => ?_, fun hn d hd => ?_⟩
  · simp [selectTimeoutString, h]
  · simp [selectTimeoutString, h1, h2]
  · simp [selectTimeoutString, h1, h2]
  · simp [resolveWaitTimeout, hd]
  · simp [resolveWaitTimeout, hn, hd]

/-- Witness for C5 at concrete inputs: flag wins, config is next, the
default is last, and a malformed selection falls back to the parsed
default. -/
theorem waitTimeout_precedence_and_fallback_witness :
    selectTimeoutString "10s" "20s" "30m" = "10s"
    ∧ selectTimeoutString "" "20s" "30m" = "20s"
    ∧ selectTimeoutString "" "" "30m" = "30m"
    ∧ resolveWaitTimeout parse30m "30m" "junk" "" = 1800 :=
  ⟨(waitTimeout_precedence_and_fallback parse30m "30m" "10s" "20s").1 (by decide),
   (waitTimeout_precedence_and_fallback parse30m "30m" "" "20s").2.1 rfl (by decide),
   (waitTimeout_precedence_and_fallback parse30m "30m" "" "").2.2.1 rfl rfl,
   (waitTimeout_precedence_and_fallback parse30m "30m" "junk" "").2.2.2.2 (by decide) 1800 rfl⟩

/-- C6: in non-dev mode the watch condition predicate holds exactly on
the terminal phases Deleting, Error, Passed, Failed, and the reported
status is the last non-None phase observed across the polls, whatever
the final observation. -/
theorem watchCondition_terminal_and_tracking :
    (∀ (val : Test) (st : TestPhase),
      (waitConditionPred (some val) st).1 = true ↔
        (val.status.phase = TestPhase.deleting ∨ val.status.phase = TestPhase.error ∨
         val.status.phase = TestPhase.passed ∨ val.status.phase = TestPhase.failed))
    ∧ (∀ obs : List (Option Test), trackStatus obs = lastObservedPhase obs) := by
  constructor
  · intro val st
    simp [waitConditionPred]
  · intro obs
    exact trackStatus_foldl obs TestPhase.new

/-- Witness for C6: a Passed observation satisfies the predicate, a
Running observation does not, and after observing Running and then a
failed read the reported status is still Running. -/
theorem watchCondition_terminal_and_tracking_witness :
    (waitConditionPred (some { status := { phase := TestPhase.passed } }) TestPhase.new).1 = true
    ∧ ¬ (waitConditionPred (some { status := { phase := TestPhase.running } }) TestPhase.new).1 = true
    ∧ trackStatus [some { status := { phase := TestPhase.running } }, Option.none] =
        TestPhase.running :=
  ⟨(watchCondition_terminal_and_tracking.1 _ _).mpr (Or.inr (Or.inr (Or.inl rfl))),
   fun h => by
     have := (watchCondition_terminal_and_tracking.1
       { status := { phase := TestPhase.running } } TestPhase.new).mp h
     simp at this,
   (watchCondition_terminal_and_tracking.2
     [some { status := { phase := TestPhase.running } }, Option.none]).trans (by decide)⟩

/-- C10: when sanitizing the raw source path yields an empty test
name, `createAndRunTest` returns the error `unable to determine test
name` while issuing no cluster call, leaving the cluster state
untouched and printing nothing. -/
theorem createAndRunTest_empty_name (ext : Ext) (o : RunCmdOptions) (rc : RunConfig)
    (st : ClusterState) (rawName : String) (h : ext.sanitizeName rawName = "") :
    createAndRunTest ext o rc st rawName =
      { result := .error (.msg "unable to determine test name"),
        state := st, calls := [], output := [] } := by
  simp [createAndRunTest, buildTest, h]

/-- Witness for C10 at a concrete sanitizer returning the empty
name. -/
theorem createAndRunTest_empty_name_witness :
    createAndRunTest extEmptyName {} {} [] "examples/test.feature" =
      { result := .error (.msg "unable to determine test name"),
        state := [], calls := [], output := [] } :=
  createAndRunTest_empty_name extEmptyName {} {} [] "examples/test.feature" rfl

/-- C4: a requested dump format of yaml or json makes
`createAndRunTest` serialize the would-be Test resource, print it, and
return early with no create/update/get call against the cluster and an
unchanged cluster state; any other non-empty dump format is rejected
with a configuration error, likewise before any cluster call for the
Test resource. -/
theorem createAndRunTest_dump_short_circuit (ext : Ext) (o : RunCmdOptions) (rc : RunConfig)
    (st : ClusterState) (rawName : String) :
    ((o.dumpFormat = "yaml" ∨ o.dumpFormat = "json") →
      (createAndRunTest ext o rc st rawName).calls = []
      ∧ (createAndRunTest ext o rc st rawName).state = st
      ∧ (∀ test, buildTest ext o rc rawName = .ok test →
          (o.dumpFormat = "yaml" → ∀ data, ext.toYAML test = .ok data →
            (createAndRunTest ext o rc st rawName).result = .ok Option.none
            ∧ (createAndRunTest ext o rc st rawName).output = [data])
          ∧ (o.dumpFormat = "json" → ∀ data, ext.toJSON test = .ok data →
            (createAndRunTest ext o rc st rawName).result = .ok Option.none
            ∧ (createAndRunTest ext o rc st rawName).output = [data])))
    ∧ (o.dumpFormat ≠ "" → o.dumpFormat ≠ "yaml" → o.dumpFormat ≠ "json" →
      (createAndRunTest ext o rc st rawName).calls = []
      ∧ (createAndRunTest ext o rc st rawName).state = st
      ∧ (∀ test, buildTest ext o rc rawName = .ok test →
          (createAndRunTest ext o rc st rawName).result =
            .error (.msg ("invalid dump output format option \x27" ++ o.dumpFormat
              ++ "\x27, should be one of: yaml|json")))) := by
  constructor
  · intro hfmt
    cases hb : buildTest ext o rc rawName with
    | error e =>
      rcases hfmt with h | h <;>
        exact ⟨by simp [createAndRunTest, hb], by simp [createAndRunTest, hb],
          fun test ht => Except.noConfusion ht⟩
    | ok test =>
      rcases hfmt with h | h
      · refine ⟨?_, ?_, ?_⟩
        · cases hy : ext.toYAML test <;> simp [createAndRunTest, hb, h, hy]
        · cases hy : ext.toYAML test <;> simp [createAndRunTest, hb, h, hy]
        · intro test' ht'
          injection ht' with hh
          subst hh
          refine ⟨fun _ data hdata => ?_, fun hj _ _ => ?_⟩
          · constructor <;> simp [createAndRunTest, hb, h, hdata]
          · rw [h] at hj; exact absurd hj (by decide)
      · refine ⟨?_, ?_, ?_⟩
        · cases hy : ext.toJSON test <;> simp [createAndRunTest, hb, h, hy]
        · cases hy : ext.toJSON test <;> simp [createAndRunTest, hb, h, hy]
        · intro test' ht'
          injection ht' with hh
          subst hh
          refine ⟨fun hy _ _ => ?_, fun _ data hdata => ?_⟩
          · rw [h] at hy; exact absurd hy (by decide)
          · constructor <;> simp [createAndRunTest, hb, h, hdata]
  · intro h0 h1 h2
    cases hb : buildTest ext o rc rawName with
    | error e =>
      exact ⟨by simp [createAndRunTest, hb, h0, h1, h2],
        by simp [createAndRunTest, hb, h0, h1, h2],
        fun test ht => Except.noConfusion ht⟩
    | ok test =>
      refine ⟨?_, ?_, fun test' ht' => ?_⟩
      · simp [createAndRunTest, hb, h0, h1, h2]
      · simp [createAndRunTest, hb, h0, h1, h2]
      · simp [createAndRunTest, hb, h0, h1, h2]

/-- Witness for C4: with the stub collaborators, dumping as yaml
issues no cluster call against a non-empty state and prints the
serialized document, and the format `xml` is rejected. -/
theorem createAndRunTest_dump_short_circuit_witness :
    (createAndRunTest extStub { dumpFormat := "yaml" } {} [{ name := "t" }] "a.feature").calls = []
    ∧ (createAndRunTest extStub { dumpFormat := "yaml" } {} [{ name := "t" }] "a.feature").state
        = [{ name := "t" }]
    ∧ (createAndRunTest extStub { dumpFormat := "yaml" } {} [{ name := "t" }]
        "a.feature").output = ["yaml-doc"]
    ∧ (createAndRunTest extStub { dumpFormat := "xml" } {} [] "a.feature").result =
        .error (.msg "invalid dump output format option \x27xml\x27, should be one of: yaml|json") := by
  have h1 := (createAndRunTest_dump_short_circuit extStub { dumpFormat := "yaml" } {}
    [{ name := "t" }] "a.feature").1 (Or.inl rfl)
  have h2 := (createAndRunTest_dump_short_circuit extStub { dumpFormat := "xml" } {}
    [] "a.feature").2 (by decide) (by decide) (by decide)
  refine ⟨h1.1, h1.2.1, ?_, ?_⟩
  · exact ((h1.2.2 _ rfl).1 rfl "yaml-doc" rfl).2
  · exact h2.2.2 _ rfl

end Yaks
